import Mathlib

/-!
Verification development for the `recast-detour-rs` query layer
(`crates/recast-detour-rs/src/lib.rs`).

The layer sits between an application and an external navigation-mesh
engine (the `sys::recastc_*` capabilities).  We embed:

* the geometry preprocessor (`compute_bb`, `world_unit_to_cell_unit`),
  with `f32` values idealized as rationals plus explicit NaN/∞ values
  where division by zero matters, and the Rust saturating
  float-to-`u16` cast made explicit;
* the path-resolution protocol (`find_poly`, `find_closest`,
  `find_path`) with the engine modelled as an oracle supplying, for
  each capability call, the C out-parameter result, the integer
  success flag, and the diagnostic message;
* the query lifecycle (construction and scoped release).
-/

/-! ### Idealized f32 values

Finite values are exact rationals; `nan` and signed infinities are kept
explicit because `world_unit_to_cell_unit` divides by the cell size,
which a caller could pass as zero. -/

inductive F32 where
  | nan : F32
  | inf : Bool → F32
  | fin : ℚ → F32
deriving DecidableEq

/-- IEEE division of a finite value by a finite value: a zero divisor
yields NaN (0/0) or a signed infinity, otherwise the exact quotient. -/
def fdiv (a b : ℚ) : F32 :=
  if b = 0 then (if a = 0 then .nan else .inf (decide (a < 0)))
  else .fin (a / b)

/-- Rust `f32::max(self, 0.0)`: if `self` is NaN the other argument
(`0.0`) is returned; `-∞` loses against `0.0`; finite values take the
ordinary maximum. -/
def fmax0 : F32 → F32
  | .nan => .fin 0
  | .inf neg => if neg then .fin 0 else .inf false
  | .fin q => .fin (max q 0)

/-- Rust `as u16` on a float: NaN casts to 0, the cast saturates at the
bounds of `u16`, and finite values are truncated toward zero (for the
non-negative values reaching the cast this is the floor). -/
def toU16 : F32 → ℕ
  | .nan => 0
  | .inf neg => if neg then 0 else 65535
  | .fin q => min 65535 (Int.toNat ⌊q⌋)

/-- Embedding of `world_unit_to_cell_unit` from the source:
`let f = ((f - bmin) / cs).max(0.0); f as u16`. -/
def world_unit_to_cell_unit (f bmin cs : ℚ) : ℕ :=
  toU16 (fmax0 (fdiv (f - bmin) cs))

/-- Formula of the spec for the quantizer, written from the words of the spec:
`floor(clamp((world - bmin)/cell_size, 0, ∞))`, truncated to an
unsigned 16-bit integer per axis (representation in `u16` saturates). -/
def quantizeSpec (f bmin cs : ℚ) : ℕ :=
  min 65535 (Int.toNat ⌊max ((f - bmin) / cs) 0⌋)

/-! ### Bounding box

`compute_bb` starts from `f32::MAX` / `f32::MIN` accumulators and folds
Rust `min`/`max` over the flat vertex list three components at a time. -/

/-- Value of `f32::MAX`, the initial value of every `bmin` accumulator. -/
def F32_MAX : ℚ := (2 ^ 24 - 1) * 2 ^ 104

/-- Value of `f32::MIN`, the initial value of every `bmax` accumulator. -/
def F32_MIN : ℚ := -F32_MAX

/-- The loop of `compute_bb`: step through the flat list three
components at a time, folding `min` into the `bmin` accumulator and
`max` into the `bmax` accumulator componentwise. -/
def bbLoop : List ℚ → (ℚ × ℚ × ℚ) → (ℚ × ℚ × ℚ) → ((ℚ × ℚ × ℚ) × (ℚ × ℚ × ℚ))
  | x :: y :: z :: rest, mn, mx =>
      bbLoop rest (min x mn.1, min y mn.2.1, min z mn.2.2)
        (max x mx.1, max y mx.2.1, max z mx.2.2)
  | _, mn, mx => (mn, mx)

/-- Embedding of `compute_bb` from the source: accumulators start at
`[f32::MAX; 3]` and `[f32::MIN; 3]`. -/
def compute_bb (vertices : List ℚ) : (ℚ × ℚ × ℚ) × (ℚ × ℚ × ℚ) :=
  bbLoop vertices (F32_MAX, F32_MAX, F32_MAX) (F32_MIN, F32_MIN, F32_MIN)

/-- The vertices described by a flat coordinate list, grouped in
triples, mirroring the `step_by(3)` traversal. -/
def verts : List ℚ → List (ℚ × ℚ × ℚ)
  | x :: y :: z :: rest => (x, y, z) :: verts rest
  | _ => []

/-- One componentwise-`min` step of the `compute_bb` loop. -/
def minf3 (a v : ℚ × ℚ × ℚ) : ℚ × ℚ × ℚ :=
  (min v.1 a.1, min v.2.1 a.2.1, min v.2.2 a.2.2)

/-- One componentwise-`max` step of the `compute_bb` loop. -/
def maxf3 (a v : ℚ × ℚ × ℚ) : ℚ × ℚ × ℚ :=
  (max v.1 a.1, max v.2.1 a.2.1, max v.2.2 a.2.2)

/-- A concrete two-vertex flat list used to evaluate `compute_bb`. -/
def bbSample : List ℚ := [0, 0, 0, 10, 0, 10]

/-! ### The engine oracle and the path-resolution protocol

Each `sys::recastc_*` capability fills an out-parameter result and an
error record and returns an integer success flag (`0` means failure).
We model one call as the triple the caller inspects: the flag, the
out-parameter payload, and the diagnostic message.  An `Engine` assigns
such a call outcome to every capability input. -/

/-- A world-space point: the three `f32` components of `Point`. -/
abbrev RPoint : Type := ℚ × ℚ × ℚ

/-- The error taxonomy of the layer (`enum Error`). -/
inductive RError where
  | CreateQueryError : String → RError
  | FindPointError : String → RError
  | FindPathError : String → RError
deriving DecidableEq

/-- Outcome of one engine capability call: the returned success flag,
the out-parameter payload, and the diagnostic message text. -/
structure EngineCall (α : Type) where
  res : ℕ
  out : α
  msg : String

/-- Embedding of `sys::RecastNearestPointInput`. -/
structure RecastNearestPointInput where
  center : RPoint
  half_extents : ℚ × ℚ × ℚ
deriving DecidableEq

/-- Embedding of `sys::RecastNearestPointResult`. -/
structure RecastNearestPointResult where
  pos : RPoint
  poly : ℕ
deriving DecidableEq

/-- Embedding of `sys::RecastPathInput`. -/
structure RecastPathInput where
  start_poly : ℕ
  start_pos : RPoint
  end_poly : ℕ
  end_pos : RPoint
deriving DecidableEq

/-- Embedding of `sys::RecastPathResult`: the polygon-reference array together with
`path_count`; the caller slices `path[0..path_count]`. -/
structure RecastPathResult where
  path : List ℕ
  path_count : ℕ

/-- Embedding of `sys::RecastClosestPointInput`. -/
structure RecastClosestPointInput where
  pos : RPoint
  poly : ℕ
deriving DecidableEq

/-- Embedding of `sys::RecastClosestPointResult`. -/
structure RecastClosestPointResult where
  pos : RPoint
deriving DecidableEq

/-- The engine as an oracle: what each capability call returns for each
input, for a fixed query handle. -/
structure Engine where
  find_nearest : RecastNearestPointInput → EngineCall RecastNearestPointResult
  path_query : RecastPathInput → EngineCall RecastPathResult
  closest_query : RecastClosestPointInput → EngineCall RecastClosestPointResult

/-- Embedding of `RecastQuery::find_poly`: build the nearest-point input with a
symmetric half-extent box, call the engine, then
`match res { 0 => Err(engine msg), _ if poly == 0 => Err("No poly found"),
_ => Ok((pos, poly)) }`. -/
def find_poly (e : Engine) (pos : RPoint) (r : ℚ) : Except RError (RPoint × ℕ) :=
  let c := e.find_nearest { center := pos, half_extents := (r, r, r) }
  match c.res with
  | 0 => .error (.FindPointError c.msg)
  | _ =>
    if c.out.poly = 0 then .error (.FindPointError ("No poly found"))
    else .ok (c.out.pos, c.out.poly)

/-- Embedding of `RecastQuery::find_closest`: call the closest-point
capability; on flag `0` return `Err(FindPointError(engine msg))`,
otherwise the returned position. -/
def find_closest (e : Engine) (pos : RPoint) (target_poly : ℕ) : Except RError RPoint :=
  let c := e.closest_query { pos := pos, poly := target_poly }
  if c.res = 0 then .error (.FindPointError c.msg)
  else .ok c.out.pos

/-- Embedding of `RecastQuery::find_path`: resolve both endpoints with `find_poly`,
query the corridor, then branch on the length of
`path[0..path_count]`: `0 => Err(FindPathError("No Path"))`,
`1 => Ok(end_p)`, `_ => find_closest(start_p, path[1])`. -/
def find_path (e : Engine) (s t : RPoint) (r : ℚ) : Except RError RPoint :=
  match find_poly e s r with
  | .error err => .error err
  | .ok (start_p, start_poly) =>
    match find_poly e t r with
    | .error err => .error err
    | .ok (end_p, end_poly) =>
      let c := e.path_query
        { start_poly := start_poly, start_pos := start_p
          end_poly := end_poly, end_pos := end_p }
      if c.res = 0 then .error (.FindPathError c.msg)
      else
        match c.out.path.take c.out.path_count with
        | [] => .error (.FindPathError ("No Path"))
        | [_] => .ok end_p
        | _ :: p1 :: _ => find_closest e start_p p1

/-! ### Query lifecycle -/

/-- An observable lifecycle event: running one query on the handle, or
releasing the handle via `recastc_free_query`. -/
inductive LifeEvent where
  | query : LifeEvent
  | free : ℕ → LifeEvent
deriving DecidableEq

/-- Whether a lifecycle event is a release of the engine handle. -/
def isFree : LifeEvent → Bool
  | .free _ => true
  | _ => false

/-- The construction step of `RecastQuery::new_from_mesh` at the engine
boundary: `recastc_create_query` returns a raw pointer (`0` = null) and
fills the error record; `NonNull::new` rejects the null pointer, which
becomes `CreateQueryError` with the diagnostic of the engine, and a
non-null pointer becomes the sole owned handle of the query. -/
def new_from_mesh (create_ret : ℕ) (msg : String) : Except RError ℕ :=
  if create_ret = 0 then .error (.CreateQueryError msg) else .ok create_ret

/-- Embedding of `Drop for RecastQuery`: one `recastc_free_query` call on the stored
(non-null) handle. -/
def dropQuery (h : ℕ) : List LifeEvent := [.free h]

/-- Modelled from the spec: the scoped-resource discipline of a `Query`
value ("destroyed exactly once, synchronously, when the Query value
itself is discarded") is Rust ownership semantics, not code under
`src/`.  A session constructs the query, runs `n` queries on it (which
release nothing), and on scope exit runs the `Drop` implementation;
a failed construction owns no handle and drops nothing. -/
def querySession (create_ret : ℕ) (msg : String) (n : ℕ) : List LifeEvent :=
  match new_from_mesh create_ret msg with
  | .error _ => []
  | .ok h => List.replicate n .query ++ dropQuery h


/-! ### Concrete engine oracles for evaluation

Small fixed oracles used to evaluate the protocol at concrete inputs.
`egMulti` resolves the start `(0,0,0)` to polygon `7` at snapped
position `(0,0,0)` and anything else to polygon `9` at `(9,9,9)`. -/

/-- Nearest-point responder shared by the concrete engines: the origin
snaps to polygon `7`, everything else to polygon `9` at `(9,9,9)`. -/
def nearestOk : RecastNearestPointInput → EngineCall RecastNearestPointResult :=
  fun inp =>
    if inp.center = ((0 : ℚ), (0 : ℚ), (0 : ℚ)) then ⟨1, ⟨(0, 0, 0), 7⟩, ""⟩
    else ⟨1, ⟨(9, 9, 9), 9⟩, ""⟩

/-- Closest-point responder that succeeds and echoes the query point. -/
def closestEcho : RecastClosestPointInput → EngineCall RecastClosestPointResult :=
  fun inp => ⟨1, ⟨inp.pos⟩, ""⟩

/-- Engine whose corridor query returns three polygons `[7, 8, 9]`. -/
def egMulti : Engine :=
  { find_nearest := nearestOk
    path_query := fun _ => ⟨1, ⟨[7, 8, 9], 3⟩, ""⟩
    closest_query := closestEcho }

/-- Engine whose corridor query reports one polygon (`path_count = 1`,
with junk beyond the count in the result array). -/
def egSame : Engine :=
  { find_nearest := nearestOk
    path_query := fun _ => ⟨1, ⟨[7, 0, 0], 1⟩, ""⟩
    closest_query := closestEcho }

/-- Engine whose corridor query succeeds with an empty corridor. -/
def egEmpty : Engine :=
  { find_nearest := nearestOk
    path_query := fun _ => ⟨1, ⟨[], 0⟩, ""⟩
    closest_query := closestEcho }

/-- Engine whose corridor query fails outright with a diagnostic. -/
def egEngineFail : Engine :=
  { find_nearest := nearestOk
    path_query := fun _ => ⟨0, ⟨[], 0⟩, "engine down"⟩
    closest_query := closestEcho }

/-- Engine whose nearest-point call succeeds but finds no polygon
(polygon reference `0`). -/
def egNoPoly : Engine :=
  { find_nearest := fun _ => ⟨1, ⟨(0, 0, 0), 0⟩, ""⟩
    path_query := fun _ => ⟨1, ⟨[], 0⟩, ""⟩
    closest_query := closestEcho }

/-- Engine whose nearest-point call fails outright with a diagnostic. -/
def egNearFail : Engine :=
  { find_nearest := fun _ => ⟨0, ⟨(0, 0, 0), 0⟩, "oops"⟩
    path_query := fun _ => ⟨1, ⟨[], 0⟩, ""⟩
    closest_query := closestEcho }

/-- Engine with a two-polygon corridor whose closest-point call fails
with diagnostic `"boom"`. -/
def egClosestFail : Engine :=
  { find_nearest := nearestOk
    path_query := fun _ => ⟨1, ⟨[7, 8], 2⟩, ""⟩
    closest_query := fun _ => ⟨0, ⟨(0, 0, 0)⟩, "boom"⟩ }

/-! ### Quantization theorems -/

/-- Every saturating cast result fits in `u16`. -/
lemma toU16_le (x : F32) : toU16 x ≤ 65535 := by
  cases x with
  | nan => simp [toU16]
  | inf b => cases b <;> simp [toU16]
  | fin q => exact Nat.min_le_left _ _

/-- C4: with a positive cell size, `world_unit_to_cell_unit` computes
`(f - bmin) / cs`, clamps to `[0, ∞)` before truncation, and truncates
toward zero into `u16`: it equals the formula of the spec,
`floor(clamp((f - bmin)/cs, 0, ∞))` represented as `u16`, and a world
value below `bmin` quantizes to `0`. -/
theorem world_unit_to_cell_unit_spec (f bmin cs : ℚ) (hcs : 0 < cs) :
    world_unit_to_cell_unit f bmin cs = quantizeSpec f bmin cs ∧
    (f < bmin → world_unit_to_cell_unit f bmin cs = 0) := by
  have hne : cs ≠ 0 := ne_of_gt hcs
  constructor
  · simp [world_unit_to_cell_unit, quantizeSpec, fdiv, fmax0, toU16, hne]
  · intro hlt
    have hq : (f - bmin) / cs < 0 := div_neg_of_neg_of_pos (by linarith) hcs
    simp [world_unit_to_cell_unit, fdiv, fmax0, toU16, hne,
      max_eq_right hq.le]

/-- Witness for C4 at `f = -5`, `bmin = 0`, `cs = 1`. -/
theorem world_unit_to_cell_unit_spec_witness :
    world_unit_to_cell_unit (-5) 0 1 = quantizeSpec (-5) 0 1 ∧
    world_unit_to_cell_unit (-5) 0 1 = 0 :=
  ⟨(world_unit_to_cell_unit_spec (-5) 0 1 one_pos).1,
   (world_unit_to_cell_unit_spec (-5) 0 1 one_pos).2 (by norm_num)⟩

/-- C7: for a fixed axis minimum and positive cell size the quantizer is
monotonic non-decreasing in the world value, and a world value at or
above the axis minimum quantizes to a non-negative cell value. -/
theorem world_unit_to_cell_unit_mono (bmin cs a b : ℚ) (hcs : 0 < cs)
    (hab : a ≤ b) :
    world_unit_to_cell_unit a bmin cs ≤ world_unit_to_cell_unit b bmin cs ∧
    (bmin ≤ a → 0 ≤ world_unit_to_cell_unit a bmin cs) := by
  have hne : cs ≠ 0 := ne_of_gt hcs
  refine ⟨?_, fun _ => Nat.zero_le _⟩
  have h1 : (a - bmin) / cs ≤ (b - bmin) / cs :=
    (div_le_div_iff_of_pos_right hcs).mpr (sub_le_sub_right hab bmin)
  simp only [world_unit_to_cell_unit, fdiv, fmax0, toU16, if_neg hne]
  exact min_le_min (le_refl _)
    (Int.toNat_le_toNat (Int.floor_le_floor (max_le_max h1 (le_refl 0))))

/-- Witness for C7 at `bmin = 0`, `cs = 1`, `a = 1`, `b = 2`. -/
theorem world_unit_to_cell_unit_mono_witness :
    world_unit_to_cell_unit 1 0 1 ≤ world_unit_to_cell_unit 2 0 1 ∧
    0 ≤ world_unit_to_cell_unit 1 0 1 :=
  ⟨(world_unit_to_cell_unit_mono 0 1 1 2 one_pos one_le_two).1,
   (world_unit_to_cell_unit_mono 0 1 1 2 one_pos one_le_two).2 (by norm_num)⟩

/-- C10: the quantizer is total with range `[0, 65535]`: a clamped
quotient of `65535` or more (including `+∞` from `cs = 0`) saturates at
`65535` instead of wrapping modulo `2^16`, and a NaN quotient (from
`f = bmin` with `cs = 0`) produces `0`. -/
theorem world_unit_to_cell_unit_total (f bmin cs : ℚ) :
    world_unit_to_cell_unit f bmin cs ≤ 65535 ∧
    (0 < cs → 65535 ≤ (f - bmin) / cs →
      world_unit_to_cell_unit f bmin cs = 65535) ∧
    (cs = 0 → bmin < f → world_unit_to_cell_unit f bmin cs = 65535) ∧
    (cs = 0 → f = bmin → world_unit_to_cell_unit f bmin cs = 0) := by
  refine ⟨toU16_le _, ?_, ?_, ?_⟩
  · intro hcs hbig
    have hne : cs ≠ 0 := ne_of_gt hcs
    have h0 : (0 : ℚ) ≤ (f - bmin) / cs := le_trans (by norm_num) hbig
    have hfl : (65535 : ℤ) ≤ ⌊(f - bmin) / cs⌋ :=
      Int.le_floor.mpr (by exact_mod_cast hbig)
    have hnn : (0 : ℤ) ≤ ⌊(f - bmin) / cs⌋ := le_trans (by norm_num) hfl
    have htn : 65535 ≤ (⌊(f - bmin) / cs⌋).toNat :=
      (Int.le_toNat hnn).mpr (by exact_mod_cast hfl)
    simp [world_unit_to_cell_unit, fdiv, fmax0, toU16, hne,
      max_eq_left h0]
    omega
  · intro hcs hlt
    have h1 : f - bmin ≠ 0 := sub_ne_zero.mpr (ne_of_gt hlt)
    have h2 : ¬(f - bmin < 0) := by linarith
    have h3 : decide (f - bmin < 0) = false := decide_eq_false h2
    simp [world_unit_to_cell_unit, fdiv, fmax0, toU16, hcs, h1, h3,
      hlt.asymm]
  · intro hcs hfb
    simp [world_unit_to_cell_unit, fdiv, fmax0, toU16, hcs, hfb]

/-- Witness for C10: saturation from `+∞` (`cs = 0`, `f > bmin`), the
NaN case (`cs = 0`, `f = bmin`), and saturation of a large finite
quotient. -/
theorem world_unit_to_cell_unit_total_witness :
    world_unit_to_cell_unit 1 0 0 = 65535 ∧
    world_unit_to_cell_unit 0 0 0 = 0 ∧
    world_unit_to_cell_unit 70000 0 1 = 65535 :=
  ⟨(world_unit_to_cell_unit_total 1 0 0).2.2.1 rfl (by norm_num),
   (world_unit_to_cell_unit_total 0 0 0).2.2.2 rfl rfl,
   (world_unit_to_cell_unit_total 70000 0 1).2.1 one_pos (by norm_num)⟩

/-! ### Path-resolution theorems -/

/-- C1: when both endpoint resolutions succeed, the corridor query
succeeds, and the corridor slice has length at least two, `find_path`
returns exactly the closest-point projection of the snapped start
position onto the second polygon of the corridor. -/
theorem find_path_multi (e : Engine) (s t : RPoint) (r : ℚ)
    (sp ep : RPoint) (spoly epoly : ℕ)
    (hs : find_poly e s r = .ok (sp, spoly))
    (ht : find_poly e t r = .ok (ep, epoly))
    (p0 p1 : ℕ) (rest : List ℕ)
    (hres : (e.path_query ⟨spoly, sp, epoly, ep⟩).res ≠ 0)
    (hcorr : (e.path_query ⟨spoly, sp, epoly, ep⟩).out.path.take
        (e.path_query ⟨spoly, sp, epoly, ep⟩).out.path_count = p0 :: p1 :: rest) :
    find_path e s t r = find_closest e sp p1 := by
  simp [find_path, hs, ht, hres, hcorr]

/-- Witness for C1 on `egMulti`: corridor `[7, 8, 9]`, so the result is
the projection onto polygon `8`. -/
theorem find_path_multi_witness :
    find_path egMulti (0, 0, 0) (1, 1, 1) 1 = find_closest egMulti (0, 0, 0) 8 :=
  find_path_multi egMulti (0, 0, 0) (1, 1, 1) 1 (0, 0, 0) (9, 9, 9) 7 9
    rfl rfl 7 8 [9] (by decide) rfl

/-- C2: when both endpoint resolutions succeed and the corridor slice
has length exactly one, `find_path` returns the snapped end position
(the position produced by resolving the end point) and performs no
closest-point projection. -/
theorem find_path_same_poly (e : Engine) (s t : RPoint) (r : ℚ)
    (sp ep : RPoint) (spoly epoly : ℕ)
    (hs : find_poly e s r = .ok (sp, spoly))
    (ht : find_poly e t r = .ok (ep, epoly))
    (p : ℕ)
    (hres : (e.path_query ⟨spoly, sp, epoly, ep⟩).res ≠ 0)
    (hcorr : (e.path_query ⟨spoly, sp, epoly, ep⟩).out.path.take
        (e.path_query ⟨spoly, sp, epoly, ep⟩).out.path_count = [p]) :
    find_path e s t r = .ok ep := by
  simp [find_path, hs, ht, hres, hcorr]

/-- Witness for C2 on `egSame`: the snapped end position `(9, 9, 9)` is
returned, not the snapped start `(0, 0, 0)`. -/
theorem find_path_same_poly_witness :
    find_path egSame (0, 0, 0) (1, 1, 1) 1 = .ok (9, 9, 9) :=
  find_path_same_poly egSame (0, 0, 0) (1, 1, 1) 1 (0, 0, 0) (9, 9, 9) 7 9
    rfl rfl 7 (by decide) rfl

/-- C3: when both endpoint resolutions succeed, a corridor query that
succeeds with an empty corridor makes `find_path` fail with
`FindPathError("No Path")`, while a corridor query that fails outright
makes it fail with `FindPathError` carrying the engine diagnostic. -/
theorem find_path_empty_corridor (e : Engine) (s t : RPoint) (r : ℚ)
    (sp ep : RPoint) (spoly epoly : ℕ)
    (hs : find_poly e s r = .ok (sp, spoly))
    (ht : find_poly e t r = .ok (ep, epoly)) :
    ((e.path_query ⟨spoly, sp, epoly, ep⟩).res ≠ 0 →
      (e.path_query ⟨spoly, sp, epoly, ep⟩).out.path.take
        (e.path_query ⟨spoly, sp, epoly, ep⟩).out.path_count = [] →
      find_path e s t r = .error (.FindPathError ("No Path"))) ∧
    ((e.path_query ⟨spoly, sp, epoly, ep⟩).res = 0 →
      find_path e s t r =
        .error (.FindPathError (e.path_query ⟨spoly, sp, epoly, ep⟩).msg)) := by
  constructor
  · intro hres hcorr
    simp [find_path, hs, ht, hres, hcorr]
  · intro hres
    simp [find_path, hs, ht, hres]

/-- Witness for C3: `egEmpty` (successful call, empty corridor) yields
`"No Path"`; `egEngineFail` (failed call) yields the engine
diagnostic. -/
theorem find_path_empty_corridor_witness :
    find_path egEmpty (0, 0, 0) (1, 1, 1) 1 =
      .error (.FindPathError ("No Path")) ∧
    find_path egEngineFail (0, 0, 0) (1, 1, 1) 1 =
      .error (.FindPathError ("engine down")) :=
  ⟨(find_path_empty_corridor egEmpty (0, 0, 0) (1, 1, 1) 1
      (0, 0, 0) (9, 9, 9) 7 9 rfl rfl).1 (by decide) rfl,
   (find_path_empty_corridor egEngineFail (0, 0, 0) (1, 1, 1) 1
      (0, 0, 0) (9, 9, 9) 7 9 rfl rfl).2 rfl⟩

/-- C6 counterexample: when the nearest-point call of the engine succeeds
with polygon reference `0`, the error message is `"No poly found"`,
which is not the claimed `"no polygon found"`. -/
theorem find_poly_message_cex :
    find_poly egNoPoly (0, 0, 0) 1 = .error (.FindPointError ("No poly found")) ∧
    RError.FindPointError ("No poly found") ≠
      RError.FindPointError ("no polygon found") :=
  ⟨rfl, by decide⟩

/-- C6 (amended): `find_poly` checks failures in order: a failed engine
call yields `FindPointError` with the engine diagnostic; a successful
call with polygon reference `0` yields
`FindPointError("No poly found")`; a successful call with a nonzero
polygon reference yields the snapped position and the reference. -/
theorem find_poly_check_order (e : Engine) (pos : RPoint) (r : ℚ) :
    ((e.find_nearest ⟨pos, (r, r, r)⟩).res = 0 →
      find_poly e pos r =
        .error (.FindPointError (e.find_nearest ⟨pos, (r, r, r)⟩).msg)) ∧
    ((e.find_nearest ⟨pos, (r, r, r)⟩).res ≠ 0 →
      (e.find_nearest ⟨pos, (r, r, r)⟩).out.poly = 0 →
      find_poly e pos r = .error (.FindPointError ("No poly found"))) ∧
    ((e.find_nearest ⟨pos, (r, r, r)⟩).res ≠ 0 →
      (e.find_nearest ⟨pos, (r, r, r)⟩).out.poly ≠ 0 →
      find_poly e pos r =
        .ok ((e.find_nearest ⟨pos, (r, r, r)⟩).out.pos,
          (e.find_nearest ⟨pos, (r, r, r)⟩).out.poly)) := by
  refine ⟨?_, ?_, ?_⟩
  · intro h0
    simp [find_poly, h0]
  · intro hne hp
    cases hr : (e.find_nearest ⟨pos, (r, r, r)⟩).res with
    | zero => exact absurd hr hne
    | succ n => simp [find_poly, hr, hp]
  · intro hne hp
    cases hr : (e.find_nearest ⟨pos, (r, r, r)⟩).res with
    | zero => exact absurd hr hne
    | succ n => simp [find_poly, hr, hp]

/-- Witness for C6 (amended), exercising all three branches on
concrete engines. -/
theorem find_poly_check_order_witness :
    find_poly egNearFail (0, 0, 0) 1 = .error (.FindPointError ("oops")) ∧
    find_poly egNoPoly (1, 2, 3) 1 = .error (.FindPointError ("No poly found")) ∧
    find_poly egMulti (0, 0, 0) 1 = .ok ((0, 0, 0), 7) :=
  ⟨(find_poly_check_order egNearFail (0, 0, 0) 1).1 rfl,
   (find_poly_check_order egNoPoly (1, 2, 3) 1).2.1 (by decide) rfl,
   (find_poly_check_order egMulti (0, 0, 0) 1).2.2 (by decide) (by decide)⟩

/-- C8 counterexample: with a two-polygon corridor and a failing
closest-point call, `find_path` returns `FindPointError("boom")`
(the point-resolution kind), not the claimed `FindPathError`. -/
theorem find_path_closest_fail_cex :
    find_path egClosestFail (0, 0, 0) (1, 1, 1) 1 =
      .error (.FindPointError ("boom")) ∧
    RError.FindPointError ("boom") ≠ RError.FindPathError ("boom") :=
  ⟨rfl, by decide⟩

/-- C8 (amended): when the corridor has length at least two and the
closest-point call of the engine fails, `find_path` returns a
point-resolution error (`FindPointError`) carrying the engine
diagnostic. -/
theorem find_path_closest_fail (e : Engine) (s t : RPoint) (r : ℚ)
    (sp ep : RPoint) (spoly epoly : ℕ)
    (hs : find_poly e s r = .ok (sp, spoly))
    (ht : find_poly e t r = .ok (ep, epoly))
    (p0 p1 : ℕ) (rest : List ℕ)
    (hres : (e.path_query ⟨spoly, sp, epoly, ep⟩).res ≠ 0)
    (hcorr : (e.path_query ⟨spoly, sp, epoly, ep⟩).out.path.take
        (e.path_query ⟨spoly, sp, epoly, ep⟩).out.path_count = p0 :: p1 :: rest)
    (hcf : (e.closest_query ⟨sp, p1⟩).res = 0) :
    find_path e s t r =
      .error (.FindPointError (e.closest_query ⟨sp, p1⟩).msg) := by
  simp [find_path, find_closest, hs, ht, hres, hcorr, hcf]

/-- Witness for C8 (amended) on `egClosestFail`. -/
theorem find_path_closest_fail_witness :
    find_path egClosestFail (0, 0, 0) (2, 2, 2) 1 =
      .error (.FindPointError ("boom")) :=
  find_path_closest_fail egClosestFail (0, 0, 0) (2, 2, 2) 1
    (0, 0, 0) (9, 9, 9) 7 9 rfl rfl 7 8 [] (by decide) rfl rfl

/-! ### Lifecycle theorems -/

/-- Query events release nothing. -/
lemma filter_isFree_replicate (n : ℕ) :
    (List.replicate n LifeEvent.query).filter isFree = [] := by
  induction n with
  | zero => rfl
  | succ k ih => simp [List.replicate_succ, List.filter_cons, isFree, ih]

/-- C9: a session that successfully constructs a query, runs any number
of queries on it, and discards the value releases the engine handle
exactly once — the release events of the session are exactly one `free` of
the owned handle — and the released handle is never null. -/
theorem query_released_once (create_ret : ℕ) (msg : String) (n : ℕ) (h : ℕ)
    (hok : new_from_mesh create_ret msg = .ok h) :
    (querySession create_ret msg n).filter isFree = [.free h] ∧ h ≠ 0 := by
  unfold new_from_mesh at hok
  by_cases hc : create_ret = 0
  · simp [hc] at hok
  · simp [hc] at hok
    subst hok
    refine ⟨?_, hc⟩
    simp [querySession, new_from_mesh, hc, dropQuery, List.filter_append,
      filter_isFree_replicate, isFree]

/-- Witness for C9 with handle `5` and three queries. -/
theorem query_released_once_witness :
    (querySession 5 ("mesh rejected") 3).filter isFree =
      [LifeEvent.free 5] ∧ (5 : ℕ) ≠ 0 :=
  query_released_once 5 ("mesh rejected") 3 5 rfl

/-! ### Bounding-box theorems -/

/-- The `compute_bb` loop is the componentwise `min`/`max` fold over the
grouped vertices. -/
theorem bbLoop_eq : ∀ (l : List ℚ) (mn mx : ℚ × ℚ × ℚ),
    bbLoop l mn mx = ((verts l).foldl minf3 mn, (verts l).foldl maxf3 mx)
  | x :: y :: z :: rest, mn, mx => by
      simp [bbLoop, verts, List.foldl_cons, minf3, maxf3, bbLoop_eq rest]
  | [], _, _ => rfl
  | [_], _, _ => rfl
  | [_, _], _, _ => rfl

/-- Every component of a grouped vertex is an element of the flat
list. -/
theorem verts_mem_comps : ∀ (l : List ℚ) (v : ℚ × ℚ × ℚ), v ∈ verts l →
    v.1 ∈ l ∧ v.2.1 ∈ l ∧ v.2.2 ∈ l
  | x :: y :: z :: rest, v, hv => by
      simp only [verts, List.mem_cons] at hv
      rcases hv with h | h
      · subst h; simp
      · have ih := verts_mem_comps rest v h
        exact ⟨List.mem_cons_of_mem _ (List.mem_cons_of_mem _
            (List.mem_cons_of_mem _ ih.1)),
          List.mem_cons_of_mem _ (List.mem_cons_of_mem _
            (List.mem_cons_of_mem _ ih.2.1)),
          List.mem_cons_of_mem _ (List.mem_cons_of_mem _
            (List.mem_cons_of_mem _ ih.2.2))⟩
  | [], _, hv => by simp [verts] at hv
  | [_], _, hv => by simp [verts] at hv
  | [_, _], _, hv => by simp [verts] at hv

/-- A non-empty flat list of length a multiple of three groups into a
non-empty vertex list. -/
lemma verts_ne_nil (vs : List ℚ) (hne : vs ≠ []) (hlen : vs.length % 3 = 0) :
    verts vs ≠ [] := by
  cases vs with
  | nil => exact absurd rfl hne
  | cons x t =>
    cases t with
    | nil => simp at hlen
    | cons y u =>
      cases u with
      | nil => simp at hlen
      | cons z rest => simp [verts]

/-- Folding `min` never rises above the initial accumulator. -/
lemma foldl_min_le_init (g : ℚ × ℚ × ℚ → ℚ) (V : List (ℚ × ℚ × ℚ)) :
    ∀ a : ℚ, V.foldl (fun acc w => min (g w) acc) a ≤ a := by
  induction V with
  | nil => intro a; simp
  | cons v V ih =>
    intro a
    exact le_trans (ih (min (g v) a)) (min_le_right _ _)

/-- Folding `min` is a lower bound for the component of every element. -/
lemma foldl_min_le_mem (g : ℚ × ℚ × ℚ → ℚ) (V : List (ℚ × ℚ × ℚ)) :
    ∀ a : ℚ, ∀ v ∈ V, V.foldl (fun acc w => min (g w) acc) a ≤ g v := by
  induction V with
  | nil => intro a v hv; simp at hv
  | cons u V ih =>
    intro a v hv
    rcases List.mem_cons.mp hv with h | h
    · subst h
      exact le_trans (foldl_min_le_init g V (min (g v) a)) (min_le_left _ _)
    · exact ih (min (g u) a) v h

/-- The folded `min` is the initial accumulator or the component of some
component. -/
lemma foldl_min_attain (g : ℚ × ℚ × ℚ → ℚ) (V : List (ℚ × ℚ × ℚ)) :
    ∀ a : ℚ, V.foldl (fun acc w => min (g w) acc) a = a ∨
      ∃ v ∈ V, V.foldl (fun acc w => min (g w) acc) a = g v := by
  induction V with
  | nil => intro a; exact Or.inl rfl
  | cons u V ih =>
    intro a
    rcases ih (min (g u) a) with h | ⟨v, hv, h⟩
    · rcases le_total (g u) a with hua | hua
      · exact Or.inr ⟨u, List.mem_cons_self u V, by
          rw [List.foldl_cons, h, min_eq_left hua]⟩
      · exact Or.inl (by rw [List.foldl_cons, h, min_eq_right hua])
    · exact Or.inr ⟨v, List.mem_cons_of_mem u hv, by rw [List.foldl_cons, h]⟩

/-- Folding `max` never falls below the initial accumulator. -/
lemma foldl_max_init_le (g : ℚ × ℚ × ℚ → ℚ) (V : List (ℚ × ℚ × ℚ)) :
    ∀ a : ℚ, a ≤ V.foldl (fun acc w => max (g w) acc) a := by
  induction V with
  | nil => intro a; simp
  | cons v V ih =>
    intro a
    exact le_trans (le_max_right _ _) (ih (max (g v) a))

/-- Folding `max` is an upper bound for the component of every element. -/
lemma foldl_max_mem_le (g : ℚ × ℚ × ℚ → ℚ) (V : List (ℚ × ℚ × ℚ)) :
    ∀ a : ℚ, ∀ v ∈ V, g v ≤ V.foldl (fun acc w => max (g w) acc) a := by
  induction V with
  | nil => intro a v hv; simp at hv
  | cons u V ih =>
    intro a v hv
    rcases List.mem_cons.mp hv with h | h
    · subst h
      exact le_trans (le_max_left _ _) (foldl_max_init_le g V (max (g v) a))
    · exact ih (max (g u) a) v h

/-- The folded `max` is the initial accumulator or the component of some
component. -/
lemma foldl_max_attain (g : ℚ × ℚ × ℚ → ℚ) (V : List (ℚ × ℚ × ℚ)) :
    ∀ a : ℚ, V.foldl (fun acc w => max (g w) acc) a = a ∨
      ∃ v ∈ V, V.foldl (fun acc w => max (g w) acc) a = g v := by
  induction V with
  | nil => intro a; exact Or.inl rfl
  | cons u V ih =>
    intro a
    rcases ih (max (g u) a) with h | ⟨v, hv, h⟩
    · rcases le_total (g u) a with hua | hua
      · exact Or.inl (by rw [List.foldl_cons, h, max_eq_right hua])
      · exact Or.inr ⟨u, List.mem_cons_self u V, by
          rw [List.foldl_cons, h, max_eq_left hua]⟩
    · exact Or.inr ⟨v, List.mem_cons_of_mem u hv, by rw [List.foldl_cons, h]⟩

/-- Projections of the componentwise `min` fold. -/
lemma foldl_minf3_proj (V : List (ℚ × ℚ × ℚ)) :
    ∀ a : ℚ × ℚ × ℚ,
      (V.foldl minf3 a).1 = V.foldl (fun acc w => min w.1 acc) a.1 ∧
      (V.foldl minf3 a).2.1 = V.foldl (fun acc w => min w.2.1 acc) a.2.1 ∧
      (V.foldl minf3 a).2.2 = V.foldl (fun acc w => min w.2.2 acc) a.2.2 := by
  induction V with
  | nil => intro a; exact ⟨rfl, rfl, rfl⟩
  | cons v V ih =>
    intro a
    simpa [List.foldl_cons, minf3] using ih (minf3 a v)

/-- Projections of the componentwise `max` fold. -/
lemma foldl_maxf3_proj (V : List (ℚ × ℚ × ℚ)) :
    ∀ a : ℚ × ℚ × ℚ,
      (V.foldl maxf3 a).1 = V.foldl (fun acc w => max w.1 acc) a.1 ∧
      (V.foldl maxf3 a).2.1 = V.foldl (fun acc w => max w.2.1 acc) a.2.1 ∧
      (V.foldl maxf3 a).2.2 = V.foldl (fun acc w => max w.2.2 acc) a.2.2 := by
  induction V with
  | nil => intro a; exact ⟨rfl, rfl, rfl⟩
  | cons v V ih =>
    intro a
    simpa [List.foldl_cons, maxf3] using ih (maxf3 a v)

/-- Over a non-empty list of components bounded above by `f32::MAX`,
the `min` fold started at `f32::MAX` is attained by some element. -/
lemma min_fold_attain_bounded (g : ℚ × ℚ × ℚ → ℚ) (V : List (ℚ × ℚ × ℚ))
    (hV : V ≠ []) (hb : ∀ v ∈ V, g v ≤ F32_MAX) :
    ∃ v ∈ V, g v = V.foldl (fun acc w => min (g w) acc) F32_MAX := by
  rcases foldl_min_attain g V F32_MAX with h | ⟨v, hv, h⟩
  · obtain ⟨v0, hv0⟩ := List.exists_mem_of_ne_nil V hV
    refine ⟨v0, hv0, ?_⟩
    rw [h]
    exact le_antisymm (hb v0 hv0)
      (by rw [← h]; exact foldl_min_le_mem g V F32_MAX v0 hv0)
  · exact ⟨v, hv, h.symm⟩

/-- Over a non-empty list of components bounded below by `f32::MIN`,
the `max` fold started at `f32::MIN` is attained by some element. -/
lemma max_fold_attain_bounded (g : ℚ × ℚ × ℚ → ℚ) (V : List (ℚ × ℚ × ℚ))
    (hV : V ≠ []) (hb : ∀ v ∈ V, F32_MIN ≤ g v) :
    ∃ v ∈ V, g v = V.foldl (fun acc w => max (g w) acc) F32_MIN := by
  rcases foldl_max_attain g V F32_MIN with h | ⟨v, hv, h⟩
  · obtain ⟨v0, hv0⟩ := List.exists_mem_of_ne_nil V hV
    refine ⟨v0, hv0, ?_⟩
    rw [h]
    exact le_antisymm
      (by rw [← h]; exact foldl_max_mem_le g V F32_MIN v0 hv0)
      (hb v0 hv0)
  · exact ⟨v, hv, h.symm⟩

/-- C5: on a non-empty flat vertex list of length a multiple of three,
all of whose coordinates are representable finite `f32` values,
`compute_bb` returns a bounding box containing every vertex
componentwise, and each component of `min` and of `max` is attained by
some vertex. -/
theorem compute_bb_correct (vs : List ℚ) (hne : vs ≠ [])
    (hlen : vs.length % 3 = 0) (hrange : ∀ x ∈ vs, |x| ≤ F32_MAX) :
    (∀ v ∈ verts vs,
      (compute_bb vs).1.1 ≤ v.1 ∧ (compute_bb vs).1.2.1 ≤ v.2.1 ∧
      (compute_bb vs).1.2.2 ≤ v.2.2 ∧ v.1 ≤ (compute_bb vs).2.1 ∧
      v.2.1 ≤ (compute_bb vs).2.2.1 ∧ v.2.2 ≤ (compute_bb vs).2.2.2) ∧
    (∃ v ∈ verts vs, v.1 = (compute_bb vs).1.1) ∧
    (∃ v ∈ verts vs, v.2.1 = (compute_bb vs).1.2.1) ∧
    (∃ v ∈ verts vs, v.2.2 = (compute_bb vs).1.2.2) ∧
    (∃ v ∈ verts vs, v.1 = (compute_bb vs).2.1) ∧
    (∃ v ∈ verts vs, v.2.1 = (compute_bb vs).2.2.1) ∧
    (∃ v ∈ verts vs, v.2.2 = (compute_bb vs).2.2.2) := by
  have hbb : compute_bb vs =
      ((verts vs).foldl minf3 (F32_MAX, F32_MAX, F32_MAX),
       (verts vs).foldl maxf3 (F32_MIN, F32_MIN, F32_MIN)) :=
    bbLoop_eq vs _ _
  have hmin := foldl_minf3_proj (verts vs) (F32_MAX, F32_MAX, F32_MAX)
  have hmax := foldl_maxf3_proj (verts vs) (F32_MIN, F32_MIN, F32_MIN)
  have e11 : (compute_bb vs).1.1 =
      (verts vs).foldl (fun acc w => min w.1 acc) F32_MAX := by
    rw [hbb]; exact hmin.1
  have e12 : (compute_bb vs).1.2.1 =
      (verts vs).foldl (fun acc w => min w.2.1 acc) F32_MAX := by
    rw [hbb]; exact hmin.2.1
  have e13 : (compute_bb vs).1.2.2 =
      (verts vs).foldl (fun acc w => min w.2.2 acc) F32_MAX := by
    rw [hbb]; exact hmin.2.2
  have e21 : (compute_bb vs).2.1 =
      (verts vs).foldl (fun acc w => max w.1 acc) F32_MIN := by
    rw [hbb]; exact hmax.1
  have e22 : (compute_bb vs).2.2.1 =
      (verts vs).foldl (fun acc w => max w.2.1 acc) F32_MIN := by
    rw [hbb]; exact hmax.2.1
  have e23 : (compute_bb vs).2.2.2 =
      (verts vs).foldl (fun acc w => max w.2.2 acc) F32_MIN := by
    rw [hbb]; exact hmax.2.2
  have hVne : verts vs ≠ [] := verts_ne_nil vs hne hlen
  have hub1 : ∀ v ∈ verts vs, v.1 ≤ F32_MAX := fun v hv =>
    (abs_le.mp (hrange v.1 (verts_mem_comps vs v hv).1)).2
  have hub2 : ∀ v ∈ verts vs, v.2.1 ≤ F32_MAX := fun v hv =>
    (abs_le.mp (hrange v.2.1 (verts_mem_comps vs v hv).2.1)).2
  have hub3 : ∀ v ∈ verts vs, v.2.2 ≤ F32_MAX := fun v hv =>
    (abs_le.mp (hrange v.2.2 (verts_mem_comps vs v hv).2.2)).2
  have hlb1 : ∀ v ∈ verts vs, F32_MIN ≤ v.1 := fun v hv => by
    rw [F32_MIN]
    exact (abs_le.mp (hrange v.1 (verts_mem_comps vs v hv).1)).1
  have hlb2 : ∀ v ∈ verts vs, F32_MIN ≤ v.2.1 := fun v hv => by
    rw [F32_MIN]
    exact (abs_le.mp (hrange v.2.1 (verts_mem_comps vs v hv).2.1)).1
  have hlb3 : ∀ v ∈ verts vs, F32_MIN ≤ v.2.2 := fun v hv => by
    rw [F32_MIN]
    exact (abs_le.mp (hrange v.2.2 (verts_mem_comps vs v hv).2.2)).1
  refine ⟨?_, ?_, ?_, ?_, ?_, ?_, ?_⟩
  · intro v hv
    rw [e11, e12, e13, e21, e22, e23]
    exact ⟨foldl_min_le_mem _ _ _ v hv, foldl_min_le_mem _ _ _ v hv,
      foldl_min_le_mem _ _ _ v hv, foldl_max_mem_le _ _ _ v hv,
      foldl_max_mem_le _ _ _ v hv, foldl_max_mem_le _ _ _ v hv⟩
  · rw [e11]; exact min_fold_attain_bounded _ _ hVne hub1
  · rw [e12]; exact min_fold_attain_bounded _ _ hVne hub2
  · rw [e13]; exact min_fold_attain_bounded _ _ hVne hub3
  · rw [e21]; exact max_fold_attain_bounded _ _ hVne hlb1
  · rw [e22]; exact max_fold_attain_bounded _ _ hVne hlb2
  · rw [e23]; exact max_fold_attain_bounded _ _ hVne hlb3

/-- Witness for C5 on the concrete list `bbSample`. -/
theorem compute_bb_correct_witness :
    (∀ v ∈ verts bbSample,
      (compute_bb bbSample).1.1 ≤ v.1 ∧ (compute_bb bbSample).1.2.1 ≤ v.2.1 ∧
      (compute_bb bbSample).1.2.2 ≤ v.2.2 ∧ v.1 ≤ (compute_bb bbSample).2.1 ∧
      v.2.1 ≤ (compute_bb bbSample).2.2.1 ∧
      v.2.2 ≤ (compute_bb bbSample).2.2.2) ∧
    (∃ v ∈ verts bbSample, v.1 = (compute_bb bbSample).1.1) ∧
    (∃ v ∈ verts bbSample, v.2.1 = (compute_bb bbSample).1.2.1) ∧
    (∃ v ∈ verts bbSample, v.2.2 = (compute_bb bbSample).1.2.2) ∧
    (∃ v ∈ verts bbSample, v.1 = (compute_bb bbSample).2.1) ∧
    (∃ v ∈ verts bbSample, v.2.1 = (compute_bb bbSample).2.2.1) ∧
    (∃ v ∈ verts bbSample, v.2.2 = (compute_bb bbSample).2.2.2) :=
  compute_bb_correct bbSample (by decide) (by decide)
    (by intro x hx; fin_cases hx <;> rw [abs_le, F32_MAX] <;>
      constructor <;> norm_num)
